import Mathlib

/-!
Shallow embedding of the `pigment-mixing` crate (files `src/lib.rs`,
`src/pigment.rs`, `src/quantize.rs`).

Machine floats (`f32`) are modelled by exact rationals `ℚ`; machine
integers by `ℕ` with explicit bounds where they matter.  The external
collaborators (the mixbox pigment-transform oracle from `mixbox-sys`, the
sRGB gamma transfer functions from `colstodian`, and the `nanorand`
pseudorandom generator) are not part of this repository's sources; they
are either taken as explicit function parameters or modelled from the
spec, as noted on each definition.
-/

namespace PigmentMixing

/-- A linear (or encoded) RGB float triplet, the `(f32, f32, f32)` /
`Color` payload of the Rust code. -/
def RGB : Type := ℚ × ℚ × ℚ

/-- `clamp` from `src/lib.rs` (lines 325-337): `if value < min { min }
else if value > max { max } else { value }`. -/
def clamp (value mn mx : ℚ) : ℚ :=
  if value < mn then mn else if value > mx then mx else value

/-- Rust's `f32::round`: round half away from zero. -/
def rustRound (x : ℚ) : ℚ :=
  if 0 ≤ x then (⌊x + 1 / 2⌋ : ℤ) else (⌈x - 1 / 2⌉ : ℤ)

/-- Rust's saturating float-to-integer `as` cast into `[0, maxVal]`:
truncate toward zero, saturating at the bounds of the target type. -/
def floatAsInt (x : ℚ) (maxVal : ℕ) : ℕ :=
  if x < 0 then 0 else min maxVal ⌊x⌋.toNat

/-- `x as u8` for a float `x`. -/
def floatAsU8 (x : ℚ) : ℕ := floatAsInt x 255

/-- `x as u16` for a float `x`. -/
def floatAsU16 (x : ℚ) : ℕ := floatAsInt x 65535

/-- Modelled from the spec: the dither pseudorandom source is the external
`nanorand::WyRand` generator (`pub type Rng = WyRand` in
`src/quantize.rs`), whose implementation is not under `src/`.  The spec
only requires a seeded generator that exposes drawing a uniform integer in
a bounded range and advances its (caller-owned) state on every draw.  We
model the 64-bit WyRand state. -/
structure RngState where
  state : ℕ

/-- Modelled from the spec: one state advance of the generator (WyRand
adds an odd 64-bit constant to its state on each raw draw). -/
def rngAdvance (s : RngState) : RngState :=
  ⟨(s.state + 0xa0761d6478bd642f) % 2 ^ 64⟩

/-- Modelled from the spec: the 64-bit output mix of the generator
(WyRand multiplies the state with a xored constant into 128 bits and
xors the two halves). -/
def rngOutput (s : RngState) : ℕ :=
  let t := s.state * (Nat.xor s.state 0xe7037ed1a0b428db)
  Nat.xor (t / 2 ^ 64) (t % 2 ^ 64) % 2 ^ 64

/-- Modelled from the spec: `rng.generate_range(lo..=hi)` — draw a
uniform integer in the inclusive bounded range `[lo, hi]`, advancing the
generator state exactly once (the raw draw is reduced into the range by
modulus). -/
def generate_range (lo hi : ℕ) (s : RngState) : ℕ × RngState :=
  let s' := rngAdvance s
  (lo + rngOutput s' % (hi - lo + 1), s')

/-- `generate_random_number` from `src/quantize.rs` (lines 10-13):
`rng.generate_range(u32::MIN / 2..=u32::MAX / 2) as f32 / u32::MAX as f32`
(`u32::MIN / 2 = 0`, `u32::MAX / 2 = 2147483647`, `u32::MAX = 4294967295`).
Returns the drawn value together with the advanced generator state. -/
def generate_random_number (s : RngState) : ℚ × RngState :=
  let r := generate_range 0 2147483647 s
  ((r.1 : ℚ) / 4294967295, r.2)

/-- `quantize_triplet` from `src/quantize.rs` (lines 15-32): draw one
random value, then for each of the three channels clamp the rounded
`one * value + random` to `[min, max]`. -/
def quantize_triplet (value : ℚ × ℚ × ℚ) (one mn mx : ℚ) (s : RngState) :
    (ℚ × ℚ × ℚ) × RngState :=
  let r := generate_random_number s
  ((clamp (rustRound (one * value.1 + r.1)) mn mx,
    clamp (rustRound (one * value.2.1 + r.1)) mn mx,
    clamp (rustRound (one * value.2.2 + r.1)) mn mx),
   r.2)

/-- `mix_linear_srgb` from `src/lib.rs` (lines 132-158): a direct call of
the external oracle entry point `mixbox_lerp_srgb32f` on the two raw
linear triplets and the ratio (converted to `f32`, here the identity on
`ℚ`).  The oracle (from `mixbox-sys`, not under `src/`) is an explicit
function parameter. -/
def mix_linear_srgb (lerp : RGB → RGB → ℚ → RGB) (a b : RGB) (ratio : ℚ) :
    RGB :=
  lerp a b ratio

/-- `mix_srgb_u8` from `src/lib.rs` (lines 167-194): divide each `u8`
channel by `u8::MAX = 255`, gamma-decode (`linearize`, the external
`colstodian` transfer passed as `decode`), mix via the oracle, gamma-encode
(`convert_to::<EncodedSrgb>`, passed as `encode`), then
`(x * 255 + 0.5) as u8`. -/
def mix_srgb_u8 (decode encode : ℚ → ℚ) (lerp : RGB → RGB → ℚ → RGB)
    (a b : ℕ × ℕ × ℕ) (ratio : ℚ) : ℕ × ℕ × ℕ :=
  let al : RGB :=
    (decode ((a.1 : ℚ) / 255), decode ((a.2.1 : ℚ) / 255),
      decode ((a.2.2 : ℚ) / 255))
  let bl : RGB :=
    (decode ((b.1 : ℚ) / 255), decode ((b.2.1 : ℚ) / 255),
      decode ((b.2.2 : ℚ) / 255))
  let res := mix_linear_srgb lerp al bl ratio
  (floatAsU8 (encode res.1 * 255 + 1 / 2),
   floatAsU8 (encode res.2.1 * 255 + 1 / 2),
   floatAsU8 (encode res.2.2 * 255 + 1 / 2))

/-- `mix_srgb_u8_dither` from `src/lib.rs` (lines 205-243): same
linearize / mix / encode pipeline as `mix_srgb_u8`, but the final
narrowing quantizes through `quantize_triplet` with `one = 255`,
`min = 0`, `max = 255`, then casts each channel with `as u8`. -/
def mix_srgb_u8_dither (decode encode : ℚ → ℚ)
    (lerp : RGB → RGB → ℚ → RGB) (a b : ℕ × ℕ × ℕ) (ratio : ℚ)
    (s : RngState) : (ℕ × ℕ × ℕ) × RngState :=
  let al : RGB :=
    (decode ((a.1 : ℚ) / 255), decode ((a.2.1 : ℚ) / 255),
      decode ((a.2.2 : ℚ) / 255))
  let bl : RGB :=
    (decode ((b.1 : ℚ) / 255), decode ((b.2.1 : ℚ) / 255),
      decode ((b.2.2 : ℚ) / 255))
  let res := mix_linear_srgb lerp al bl ratio
  let q := quantize_triplet (encode res.1, encode res.2.1, encode res.2.2)
    255 0 255 s
  ((floatAsU8 q.1.1, floatAsU8 q.1.2.1, floatAsU8 q.1.2.2), q.2)

/-- `mix_linear_srgb_u16` from `src/lib.rs` (lines 251-278): divide each
`u16` channel by `u16::MAX = 65535` (no gamma decode: inputs are linear),
mix via the oracle, then `(x * 65535 + 0.5) as u16` (no gamma encode). -/
def mix_linear_srgb_u16 (lerp : RGB → RGB → ℚ → RGB) (a b : ℕ × ℕ × ℕ)
    (ratio : ℚ) : ℕ × ℕ × ℕ :=
  let al : RGB := ((a.1 : ℚ) / 65535, (a.2.1 : ℚ) / 65535,
    (a.2.2 : ℚ) / 65535)
  let bl : RGB := ((b.1 : ℚ) / 65535, (b.2.1 : ℚ) / 65535,
    (b.2.2 : ℚ) / 65535)
  let res := mix_linear_srgb lerp al bl ratio
  (floatAsU16 (res.1 * 65535 + 1 / 2),
   floatAsU16 (res.2.1 * 65535 + 1 / 2),
   floatAsU16 (res.2.2 * 65535 + 1 / 2))

/-- `mix_srgb_u16_dither` from `src/lib.rs` (lines 289-323): the source
declares `[u8; 3]` inputs but divides each channel by `u16::MAX = 65535`
(no gamma decode), mixes via the oracle, quantizes with `one = 65535`,
`min = 0`, `max = 65535`, and casts the result channels with `as u8`
(return type `[u8; 3]`). -/
def mix_srgb_u16_dither (lerp : RGB → RGB → ℚ → RGB) (a b : ℕ × ℕ × ℕ)
    (ratio : ℚ) (s : RngState) : (ℕ × ℕ × ℕ) × RngState :=
  let al : RGB := ((a.1 : ℚ) / 65535, (a.2.1 : ℚ) / 65535,
    (a.2.2 : ℚ) / 65535)
  let bl : RGB := ((b.1 : ℚ) / 65535, (b.2.1 : ℚ) / 65535,
    (b.2.2 : ℚ) / 65535)
  let res := mix_linear_srgb lerp al bl ratio
  let q := quantize_triplet res 65535 0 65535 s
  ((floatAsU8 q.1.1, floatAsU8 q.1.2.1, floatAsU8 q.1.2.2), q.2)

/-- `PIGMENT_LEN = MIXBOX_NUMLATENTS` in `src/pigment.rs` (line 12).
Modelled from the spec: the constant comes from the external `mixbox-sys`
bindings ("length = a model-defined constant, call it K"); the mixbox
reference implementation uses 7 latent components. -/
def PIGMENT_LEN : ℕ := 7

/-- `Pigment` from `src/pigment.rs` (line 14): a fixed-length array of
`PIGMENT_LEN` latent float coefficients. -/
def Pigment : Type := Fin PIGMENT_LEN → ℚ

/-- The triplet handed to the external forward oracle
`mixbox_srgb32f_to_latent` by `Pigment::from_linear_srgb_u16`
(`src/pigment.rs` lines 51-64): each `u16` channel is divided by
`u8::MAX as f32 = 255`. -/
def from_linear_srgb_u16_oracle_input (r g b : ℕ) : RGB :=
  ((r : ℚ) / 255, (g : ℚ) / 255, (b : ℚ) / 255)

/-- `Pigment::from_linear_srgb_u16` from `src/pigment.rs` (lines 51-64):
calls the external forward oracle (explicit parameter `toLatent`) on the
normalized triplet. -/
def Pigment.from_linear_srgb_u16 (toLatent : RGB → Pigment) (r g b : ℕ) :
    Pigment :=
  toLatent (from_linear_srgb_u16_oracle_input r g b)

/-- `Pigment::from_mix` from `src/pigment.rs` (lines 94-107): clamp the
ratio to `[0, 1]`, then zip the two latent arrays elementwise with
`a * (1 - ratio) + b * ratio`. -/
def Pigment.from_mix (a b : Pigment) (ratio : ℚ) : Pigment :=
  let r := clamp ratio 0 1
  fun i => a i * (1 - r) + b i * r

/-- `Pigment::mix` from `src/pigment.rs` (lines 110-120): clamp the ratio
to `[0, 1]` and overwrite each receiver component with
`a * (1 - ratio) + b * ratio`.  The mutation is modelled by returning the
new receiver value. -/
def Pigment.mix (self b : Pigment) (ratio : ℚ) : Pigment :=
  let r := clamp ratio 0 1
  fun i => self i * (1 - r) + b i * r

/-- `FromIterator for Pigment` from `src/pigment.rs` (lines 154-170):
`iter.take(PIGMENT_LEN).collect()` into an `ArrayVec`, then
`into_inner().unwrap()`.  `none` models the `unwrap` panic (the
`ArrayVec` was not full). -/
def pigment_from_iter (l : List ℚ) : Option Pigment :=
  if h : (l.take PIGMENT_LEN).length = PIGMENT_LEN then
    some (fun i => (l.take PIGMENT_LEN).get ⟨i.1, h.symm ▸ i.2⟩)
  else
    none

/-- A concrete oracle used only to instantiate universally quantified
oracle parameters in witnesses: endpoint interpolation. -/
def endpointLerp : RGB → RGB → ℚ → RGB := fun p q r => if r = 1 then q else p

theorem le_clamp (x mn mx : ℚ) (h : mn ≤ mx) : mn ≤ clamp x mn mx := by
  unfold clamp; split_ifs <;> linarith

theorem clamp_le (x mn mx : ℚ) (h : mn ≤ mx) : clamp x mn mx ≤ mx := by
  unfold clamp; split_ifs <;> linarith

theorem floatAsInt_le (x : ℚ) (m : ℕ) : floatAsInt x m ≤ m := by
  unfold floatAsInt; split_ifs
  · exact Nat.zero_le m
  · exact Nat.min_le_left m _

theorem floatAsU8_roundtrip (c : ℕ) (hc : c ≤ 255) :
    floatAsU8 ((c : ℚ) / 255 * 255 + 1 / 2) = c := by
  have h1 : (c : ℚ) / 255 * 255 + 1 / 2 = (c : ℚ) + 1 / 2 := by
    field_simp
  rw [h1]
  unfold floatAsU8 floatAsInt
  rw [if_neg (not_lt.mpr (by positivity))]
  have h2 : ⌊(c : ℚ) + 1 / 2⌋ = (c : ℤ) := by
    rw [Int.floor_eq_iff]
    constructor
    · push_cast; linarith
    · push_cast; linarith
  rw [h2]
  simp [Int.toNat_natCast, Nat.min_eq_right hc]

/-- C3: `quantize_triplet` draws exactly one random scalar and reuses the
same draw for all three channels; each output channel is
`clamp(round(one * channel + d), min, max)`, and the generator state
after the call is the state after that single draw. -/
theorem quantize_triplet_single_shared_draw (v : ℚ × ℚ × ℚ)
    (one mn mx : ℚ) (s : RngState) :
    quantize_triplet v one mn mx s =
      ((clamp (rustRound (one * v.1 + (generate_random_number s).1)) mn mx,
        clamp (rustRound (one * v.2.1 + (generate_random_number s).1)) mn mx,
        clamp (rustRound (one * v.2.2 + (generate_random_number s).1)) mn mx),
       (generate_random_number s).2) := rfl

/-- C4: `Pigment::from_mix` and `Pigment::mix` clamp the supplied ratio
to `[0, 1]` before use, the result is elementwise
`a * (1 - ratio) + b * ratio` over the latent components (with the
clamped ratio), and `Pigment::mix` leaves the receiver equal to
`Pigment::from_mix` of the same arguments. -/
theorem pigment_mix_clamps_ratio (a b : Pigment) (ratio : ℚ) :
    (0 ≤ clamp ratio 0 1 ∧ clamp ratio 0 1 ≤ 1) ∧
    (∀ i, Pigment.from_mix a b ratio i =
      a i * (1 - clamp ratio 0 1) + b i * clamp ratio 0 1) ∧
    Pigment.mix a b ratio = Pigment.from_mix a b ratio :=
  ⟨⟨le_clamp ratio 0 1 (by norm_num), clamp_le ratio 0 1 (by norm_num)⟩,
   fun _ => rfl, rfl⟩

/-- C5: the plain mixing entry point `mix_linear_srgb` hands the ratio to
the oracle unchanged — for every ratio (also outside `[0, 1]`) the oracle
receives exactly the caller's ratio, which differs from the clamped ratio
whenever the ratio is out of range. -/
theorem mix_linear_srgb_ratio_unclamped (lerp : RGB → RGB → ℚ → RGB)
    (a b : RGB) (ratio : ℚ) :
    mix_linear_srgb lerp a b ratio = lerp a b ratio ∧
    (ratio < 0 ∨ 1 < ratio → clamp ratio 0 1 ≠ ratio) := by
  refine ⟨rfl, fun h => ?_⟩
  unfold clamp
  rcases h with h | h
  · rw [if_pos h]; linarith
  · rw [if_neg (by linarith), if_pos h]; linarith

/-- Witness for C5 at the concrete out-of-range ratio 2. -/
theorem mix_linear_srgb_ratio_unclamped_witness :
    mix_linear_srgb endpointLerp ((0 : ℚ), (0 : ℚ), (0 : ℚ))
        ((1 : ℚ), (1 : ℚ), (1 : ℚ)) 2 =
      endpointLerp ((0 : ℚ), (0 : ℚ), (0 : ℚ)) ((1 : ℚ), (1 : ℚ), (1 : ℚ)) 2 ∧
    clamp 2 0 1 ≠ 2 := by
  have h := mix_linear_srgb_ratio_unclamped endpointLerp
    ((0 : ℚ), (0 : ℚ), (0 : ℚ)) ((1 : ℚ), (1 : ℚ), (1 : ℚ)) 2
  exact ⟨h.1, h.2 (Or.inr (by norm_num))⟩

/-- C6: `quantize_triplet` is total (it is a Lean function) and, whenever
`min ≤ max`, every output channel lies in `[min, max]`. -/
theorem quantize_triplet_output_in_range (v : ℚ × ℚ × ℚ) (one mn mx : ℚ)
    (s : RngState) (h : mn ≤ mx) :
    (mn ≤ (quantize_triplet v one mn mx s).1.1 ∧
      (quantize_triplet v one mn mx s).1.1 ≤ mx) ∧
    (mn ≤ (quantize_triplet v one mn mx s).1.2.1 ∧
      (quantize_triplet v one mn mx s).1.2.1 ≤ mx) ∧
    (mn ≤ (quantize_triplet v one mn mx s).1.2.2 ∧
      (quantize_triplet v one mn mx s).1.2.2 ≤ mx) :=
  ⟨⟨le_clamp _ mn mx h, clamp_le _ mn mx h⟩,
   ⟨le_clamp _ mn mx h, clamp_le _ mn mx h⟩,
   ⟨le_clamp _ mn mx h, clamp_le _ mn mx h⟩⟩

/-- Witness for C6 at a concrete triplet, scale 255 and range `[0, 255]`. -/
theorem quantize_triplet_output_in_range_witness :
    (0 : ℚ) ≤ 255 ∧
    ((0 ≤ (quantize_triplet (1 / 3, 1 / 2, 2) 255 0 255 ⟨12345⟩).1.1 ∧
      (quantize_triplet (1 / 3, 1 / 2, 2) 255 0 255 ⟨12345⟩).1.1 ≤ 255) ∧
    (0 ≤ (quantize_triplet (1 / 3, 1 / 2, 2) 255 0 255 ⟨12345⟩).1.2.1 ∧
      (quantize_triplet (1 / 3, 1 / 2, 2) 255 0 255 ⟨12345⟩).1.2.1 ≤ 255) ∧
    (0 ≤ (quantize_triplet (1 / 3, 1 / 2, 2) 255 0 255 ⟨12345⟩).1.2.2 ∧
      (quantize_triplet (1 / 3, 1 / 2, 2) 255 0 255 ⟨12345⟩).1.2.2 ≤ 255)) :=
  ⟨by norm_num,
   quantize_triplet_output_in_range (1 / 3, 1 / 2, 2) 255 0 255 ⟨12345⟩
     (by norm_num)⟩

/-- C7: the re-encoding entry points scale by the bit width's maximum,
add 0.5 and narrow with a saturating cast (clamp to the representable
range), so every output channel of `mix_srgb_u8` is at most 255 and every
output channel of `mix_linear_srgb_u16` is at most 65535 (outputs are
naturals, so 0 is a lower bound by construction), for every oracle,
transfer function, input and ratio. -/
theorem mix_reencode_output_in_range (decode encode : ℚ → ℚ)
    (lerp : RGB → RGB → ℚ → RGB) (a b : ℕ × ℕ × ℕ) (ratio : ℚ) :
    ((mix_srgb_u8 decode encode lerp a b ratio).1 ≤ 255 ∧
      (mix_srgb_u8 decode encode lerp a b ratio).2.1 ≤ 255 ∧
      (mix_srgb_u8 decode encode lerp a b ratio).2.2 ≤ 255) ∧
    ((mix_linear_srgb_u16 lerp a b ratio).1 ≤ 65535 ∧
      (mix_linear_srgb_u16 lerp a b ratio).2.1 ≤ 65535 ∧
      (mix_linear_srgb_u16 lerp a b ratio).2.2 ≤ 65535) :=
  ⟨⟨floatAsInt_le _ 255, floatAsInt_le _ 255, floatAsInt_le _ 255⟩,
   ⟨floatAsInt_le _ 65535, floatAsInt_le _ 65535, floatAsInt_le _ 65535⟩⟩

/-- C10: dithered quantization is deterministic and reproducible — a call
advances the caller's generator state by exactly one draw, and equal
inputs with equal generator states give equal outputs and equal final
states, both for `quantize_triplet` and for `mix_srgb_u8_dither`. -/
theorem dither_reproducible (v : ℚ × ℚ × ℚ) (one mn mx : ℚ)
    (decode encode : ℚ → ℚ) (lerp : RGB → RGB → ℚ → RGB)
    (a b : ℕ × ℕ × ℕ) (ratio : ℚ) (s₁ s₂ : RngState) (h : s₁ = s₂) :
    (quantize_triplet v one mn mx s₁).2 = rngAdvance s₁ ∧
    quantize_triplet v one mn mx s₁ = quantize_triplet v one mn mx s₂ ∧
    (mix_srgb_u8_dither decode encode lerp a b ratio s₁).2 =
      rngAdvance s₁ ∧
    mix_srgb_u8_dither decode encode lerp a b ratio s₁ =
      mix_srgb_u8_dither decode encode lerp a b ratio s₂ := by
  subst h
  exact ⟨rfl, rfl, rfl, rfl⟩

/-- Witness for C10 at concrete inputs and the concrete seed 42. -/
theorem dither_reproducible_witness :
    (quantize_triplet (0, 1 / 2, 1) 255 0 255 ⟨42⟩).2 = rngAdvance ⟨42⟩ ∧
    quantize_triplet (0, 1 / 2, 1) 255 0 255 ⟨42⟩ =
      quantize_triplet (0, 1 / 2, 1) 255 0 255 ⟨42⟩ ∧
    (mix_srgb_u8_dither id id endpointLerp (252, 211, 0) (0, 0, 96)
        (1 / 2) ⟨42⟩).2 = rngAdvance ⟨42⟩ ∧
    mix_srgb_u8_dither id id endpointLerp (252, 211, 0) (0, 0, 96)
        (1 / 2) ⟨42⟩ =
      mix_srgb_u8_dither id id endpointLerp (252, 211, 0) (0, 0, 96)
        (1 / 2) ⟨42⟩ :=
  dither_reproducible (0, 1 / 2, 1) 255 0 255 id id endpointLerp
    (252, 211, 0) (0, 0, 96) (1 / 2) ⟨42⟩ ⟨42⟩ rfl

/-- C8: identity mix for the convenience functions. Under the
spec-modelled oracle contract (`lerp(a, b, 0) = a`, `lerp(a, b, 1) = b`)
and the gamma round-trip contract (`encode (decode x) = x`) of the
external collaborators, `mix_linear_srgb` returns the corresponding
endpoint exactly, and `mix_srgb_u8` returns the original integer triplet
(the `+0.5`-and-truncate narrowing recovers each channel exactly). -/
theorem mix_identity (decode encode : ℚ → ℚ) (lerp : RGB → RGB → ℚ → RGB)
    (hre : ∀ x, encode (decode x) = x)
    (h0 : ∀ p q : RGB, lerp p q 0 = p)
    (h1 : ∀ p q : RGB, lerp p q 1 = q)
    (a b : ℕ × ℕ × ℕ)
    (ha1 : a.1 ≤ 255) (ha2 : a.2.1 ≤ 255) (ha3 : a.2.2 ≤ 255)
    (hb1 : b.1 ≤ 255) (hb2 : b.2.1 ≤ 255) (hb3 : b.2.2 ≤ 255) :
    (∀ p q : RGB,
      mix_linear_srgb lerp p q 0 = p ∧ mix_linear_srgb lerp p q 1 = q) ∧
    mix_srgb_u8 decode encode lerp a b 0 = a ∧
    mix_srgb_u8 decode encode lerp a b 1 = b := by
  refine ⟨fun p q => ⟨h0 p q, h1 p q⟩, ?_, ?_⟩
  · simp only [mix_srgb_u8, mix_linear_srgb]
    rw [h0]
    simp only [hre]
    rw [floatAsU8_roundtrip _ ha1, floatAsU8_roundtrip _ ha2,
      floatAsU8_roundtrip _ ha3]
  · simp only [mix_srgb_u8, mix_linear_srgb]
    rw [h1]
    simp only [hre]
    rw [floatAsU8_roundtrip _ hb1, floatAsU8_roundtrip _ hb2,
      floatAsU8_roundtrip _ hb3]

/-- Witness for C8 at the concrete colors of the crate's doc example. -/
theorem mix_identity_witness :
    mix_srgb_u8 id id endpointLerp (252, 211, 0) (0, 0, 96) 0 =
      (252, 211, 0) ∧
    mix_srgb_u8 id id endpointLerp (252, 211, 0) (0, 0, 96) 1 =
      (0, 0, 96) := by
  have h := mix_identity id id endpointLerp (fun x => rfl)
    (fun p q => if_neg (by norm_num)) (fun p q => if_pos rfl)
    (252, 211, 0) (0, 0, 96) (by norm_num) (by norm_num) (by norm_num)
    (by norm_num) (by norm_num) (by norm_num)
  exact ⟨h.2.1, h.2.2⟩

/-- C9: constructing a `Pigment` from an iterator panics (modelled as
`none`) exactly when the iterator yields fewer than `PIGMENT_LEN`
elements; when it yields the `PIGMENT_LEN` components of `p` followed by
arbitrary extra elements, the result is exactly `p` (the extras are
silently discarded). -/
theorem pigment_from_iter_panics_iff_short :
    (∀ l : List ℚ, pigment_from_iter l = none ↔ l.length < PIGMENT_LEN) ∧
    (∀ (p : Pigment) (extra : List ℚ),
      pigment_from_iter (List.ofFn p ++ extra) = some p) := by
  constructor
  · intro l
    unfold pigment_from_iter
    split
    next h =>
      rw [List.length_take] at h
      simp only [reduceCtorEq, false_iff, not_lt]
      omega
    next h =>
      rw [List.length_take] at h
      simp only [true_iff]
      omega
  · intro p extra
    unfold pigment_from_iter
    have hcond : ((List.ofFn p ++ extra).take PIGMENT_LEN).length =
        PIGMENT_LEN := by
      rw [List.length_take, List.length_append, List.length_ofFn]
      omega
    rw [dif_pos hcond]
    congr 1
    funext i
    have hlt : i.1 < PIGMENT_LEN := i.2
    have hofn : i.1 < (List.ofFn p).length := by
      rw [List.length_ofFn]; exact hlt
    rw [List.get_eq_getElem]
    simp only [List.getElem_take, List.getElem_append_left hofn,
      List.getElem_ofFn]

/-- C2: evaluation of the normalization stage of
`Pigment::from_linear_srgb_u16` at the failing input `(65535, 0, 0)`.
The source divides each `u16` channel by `u8::MAX = 255`, so the oracle
receives `(257, 0, 0)` — not the `(65535 / 65535, 0, 0) = (1, 0, 0)` that
dividing by the 16-bit maximum would give.  The last conjunct records
that the whole entry point is the oracle applied to the divide-by-255
triplet for every input. -/
theorem from_linear_srgb_u16_wrong_divisor :
    from_linear_srgb_u16_oracle_input 65535 0 0 = ((257 : ℚ), 0, 0) ∧
    (257 : ℚ) ≠ (65535 : ℚ) / 65535 ∧
    (∀ (toLatent : RGB → Pigment) (r g b : ℕ),
      Pigment.from_linear_srgb_u16 toLatent r g b =
        toLatent ((r : ℚ) / 255, (g : ℚ) / 255, (b : ℚ) / 255)) := by
  refine ⟨?_, by norm_num, fun _ _ _ _ => rfl⟩
  show ((65535 : ℚ) / 255, ((0 : ℕ) : ℚ) / 255, ((0 : ℕ) : ℚ) / 255) =
    ((257 : ℚ), 0, 0)
  norm_num

/-- The scalar value the dither draw produces from a raw in-range draw
`k`: `k as f32 / u32::MAX as f32` (exact rational model). -/
def grn_value (k : ℕ) : ℚ := (k : ℚ) / 4294967295

/-- C1: the dither offset is NOT uniform over `[-0.5, 0.5)` and NOT
zero-mean.  For every generator state the value returned by
`generate_random_number` is nonnegative (it is `k / (2^32 - 1)` for some
raw draw `k < 2^31`, so it lies in `[0, 0.5]`), and the mean over the
`2^31` equally likely raw draws is `2147483647 / 8589934590 ≈ 0.25`,
which is not 0 — contradicting the function's own doc comment
("a random number in the range -0.5 .. 0.5") and the spec. -/
theorem generate_random_number_biased :
    (∀ s : RngState, 0 ≤ (generate_random_number s).1 ∧
      ∃ k : ℕ, k < 2147483648 ∧ (generate_random_number s).1 = grn_value k) ∧
    (Finset.range 2147483648).sum grn_value / 2147483648 =
      2147483647 / 8589934590 ∧
    (2147483647 / 8589934590 : ℚ) ≠ 0 := by
  refine ⟨fun s => ⟨?_, ?_⟩, ?_, by norm_num⟩
  · unfold generate_random_number generate_range
    positivity
  · refine ⟨rngOutput (rngAdvance s) % 2147483648,
      Nat.mod_lt _ (by norm_num), ?_⟩
    unfold generate_random_number generate_range grn_value
    norm_num
  · have h2 := Finset.sum_range_id_mul_two 2147483648
    have hnat : (Finset.range 2147483648).sum (fun i => i) =
        2305843008139952128 := by
      omega
    have hsplit : (Finset.range 2147483648).sum grn_value =
        ((Finset.range 2147483648).sum (fun k => (k : ℚ))) / 4294967295 := by
      unfold grn_value
      exact (Finset.sum_div _ _ _).symm
    have hcast : ((Finset.range 2147483648).sum (fun k => (k : ℚ))) =
        ((2305843008139952128 : ℕ) : ℚ) := by
      rw [← hnat, Nat.cast_sum]
    rw [hsplit, hcast]
    norm_num

end PigmentMixing
